import Mathlib

/-!
Verification of the mind-map canvas engine of `src/components/canvas/MindMapCanvas.tsx`:
the geometry engine (`calculateNodePositions`, `avoidOverlap`, `calculateNodeDepth`),
the duplicate-edge reconciliation pass, the generate-children orchestration with its
generation tracker, and the ancestor-context builder.

Coordinates are modelled as integers: every position the layout code constructs and
every arithmetic operation it performs on them (addition, multiplication by the
integer grid constants, halving of even totals) stays on integers and is exact in
IEEE doubles, so `Int` reproduces the source arithmetic exactly.
JavaScript `Set`s of node ids are modelled as `List String` used membership-wise
(`List.insert` is insert-if-absent, exactly `Set.add`).
-/

namespace MindMap

/-- A 2D position, `{ x, y }` in the source. -/
structure Point where
  x : Int
  y : Int
deriving DecidableEq, Repr

/-- A React Flow node as the canvas code uses it: an id, a position that may be
missing or non-numeric (`none`), and the data fields the ancestor-context builder
reads.  A `none` data field models a JavaScript absent or falsy (empty) string. -/
structure Node where
  id : String
  position : Option Point
  question : Option String
  answer : Option String
  content : Option String
deriving DecidableEq, Repr

/-- A React Flow edge: `{ id, source, target }`. -/
structure Edge where
  id : String
  source : String
  target : String
deriving DecidableEq, Repr

/-- `createEdge(source, target)` of the source. -/
def createEdge (source : String) (target : String) : Edge :=
  { id := "edge-" ++ source ++ "-" ++ target, source := source, target := target }

/-- `NODE_WIDTH = 300`. -/
def NODE_WIDTH : Int := 300
/-- `NODE_HEIGHT = 150`. -/
def NODE_HEIGHT : Int := 150
/-- `PADDING = 50`. -/
def PADDING : Int := 50
/-- `GRID_HORIZONTAL_SPACING = 250`. -/
def GRID_HORIZONTAL_SPACING : Int := 250
/-- `GRID_VERTICAL_SPACING = 200`. -/
def GRID_VERTICAL_SPACING : Int := 200
/-- `MAX_SIBLINGS_PER_LEVEL = 3`. -/
def MAX_SIBLINGS_PER_LEVEL : Nat := 3

/-- The positions of the nodes that pass `avoidOverlap`'s validity filter
(`node && node.position && typeof x === 'number' && typeof y === 'number'`). -/
def validPositions (existingNodes : List Node) : List Point :=
  existingNodes.filterMap (fun n => n.position)

/-- `Math.abs`. -/
def jsAbs (a : Int) : Int := if a < 0 then -a else a

/-- `Math.max` of two values. -/
def jsMax (a b : Int) : Int := if a ≤ b then b else a

/-- The axis-aligned bounding-box test of `avoidOverlap`'s `isOverlapping`:
a candidate overlaps a node when both the horizontal distance is below
`(nodeWidth + padding) / 2` and the vertical distance is below
`(nodeHeight + padding) / 2`. -/
def overlapsB (nodeWidth nodeHeight padding : Int) (q p : Point) : Bool :=
  decide (jsAbs (q.x - p.x) < (nodeWidth + padding) / 2 ∧
    jsAbs (q.y - p.y) < (nodeHeight + padding) / 2)

/-- `isOverlapping(pos)`: some valid node overlaps `pos`. -/
def isOverlapping (nodeWidth nodeHeight padding : Int) (valid : List Point) (p : Point) : Bool :=
  valid.any (fun q => overlapsB nodeWidth nodeHeight padding q p)

/-- One mutation of `testPosition` inside the probing loop: on even `attempts`
move one grid step right, otherwise return to the original x and move one grid
step down. -/
def probeStep (position : Point) (test : Point) (attempts : Nat) : Point :=
  if attempts % 2 = 0 then
    { x := test.x + GRID_HORIZONTAL_SPACING, y := test.y }
  else
    { x := position.x, y := test.y + GRID_VERTICAL_SPACING }

/-- The `while (isOverlapping(testPosition) && attempts < maxAttempts)` loop of
`avoidOverlap`, with explicit fuel (the loop makes at most 20 iterations, so any
fuel ≥ 21 − attempts runs it to completion).  Returns the final `testPosition`
and `attempts`. -/
def probeLoop (nodeWidth nodeHeight padding : Int) (valid : List Point) (position : Point) :
    Nat → Point → Nat → Point × Nat
  | 0, test, attempts => (test, attempts)
  | fuel + 1, test, attempts =>
    if isOverlapping nodeWidth nodeHeight padding valid test = true ∧ attempts < 20 then
      probeLoop nodeWidth nodeHeight padding valid position fuel
        (probeStep position test attempts) (attempts + 1)
    else
      (test, attempts)

/-- `Math.max(...validNodes.map(n => n.position.y))` over a non-empty list of
valid positions (the empty case is unreachable where the source uses it). -/
def maxYOf : List Point → Int
  | [] => 0
  | p :: rest => rest.foldl (fun m q => jsMax m q.y) p.y

/-- `avoidOverlap(position, existingNodes, nodeWidth, nodeHeight, padding)` of the
source, for a candidate with numeric coordinates (the non-numeric-candidate guard
is outside this model's input space).  Mirrors the source: empty or all-invalid
existing nodes and non-overlapping candidates are returned unchanged; otherwise
the probing loop runs for up to 20 attempts, and reaching 20 attempts yields the
below-everything fallback `(position.x, maxY + nodeHeight + padding)`. -/
def avoidOverlapWith (nodeWidth nodeHeight padding : Int) (position : Point)
    (existingNodes : List Node) : Point :=
  if existingNodes.isEmpty then position
  else
    let valid := validPositions existingNodes
    if valid.isEmpty then position
    else if isOverlapping nodeWidth nodeHeight padding valid position = false then position
    else
      let r := probeLoop nodeWidth nodeHeight padding valid position 21 position 0
      if 20 ≤ r.2 then
        { x := position.x, y := maxYOf valid + nodeHeight + padding }
      else r.1

/-- `avoidOverlap` with the default dimension arguments the layout code uses. -/
def avoidOverlap (position : Point) (existingNodes : List Node) : Point :=
  avoidOverlapWith NODE_WIDTH NODE_HEIGHT PADDING position existingNodes

/-- The grid candidate for child index `i` before overlap resolution:
`x = baseX + floor(i/3)*(NODE_WIDTH+PADDING)`, `y = startY + (i mod 3)*GRID_VERTICAL_SPACING`. -/
def gridCandidate (baseX startY : Int) (i : Nat) : Point :=
  { x := baseX + (↑(i / MAX_SIBLINGS_PER_LEVEL) : Int) * (NODE_WIDTH + PADDING),
    y := startY + (↑(i % MAX_SIBLINGS_PER_LEVEL) : Int) * GRID_VERTICAL_SPACING }

/-- `calculateNodePositions(parentNodeId, childrenCount, existingNodes, existingEdges)`.
Faithful to the source: a non-positive count is coerced to 1; a falsy parent id
(`null`, or the empty string, both modelled as `none` since the source tests
`!parentNodeId`) yields the single canonical center `(650, 400)`; a parent id
that does not resolve
to a node with a valid numeric position yields the single canonical center; otherwise
each grid candidate is passed through `avoidOverlap` against `existingNodes`.
(The source also computes `calculateNodeDepth(parentNode.id, …)` at this point but
never uses the result; that call is modelled separately as `calculateNodeDepthF`.) -/
def calculateNodePositions : Option String → Int → List Node → List Edge → List Point
  | none, _, _, _ => [{ x := 650, y := 400 }]
  | some pid, childrenCount, existingNodes, _ =>
    let count : Nat := if childrenCount ≤ 0 then 1 else childrenCount.toNat
    match (existingNodes.find? (fun n => n.id == pid)).bind (fun n => n.position) with
    | none => [{ x := 650, y := 400 }]
    | some ppos =>
      let baseX := ppos.x + GRID_HORIZONTAL_SPACING
      let totalHeight := (↑(min count MAX_SIBLINGS_PER_LEVEL) : Int) * GRID_VERTICAL_SPACING
      let startY := if 1 < count then ppos.y - totalHeight / 2 + GRID_VERTICAL_SPACING / 2
                    else ppos.y
      (List.range count).map (fun i =>
        avoidOverlap (gridCandidate baseX startY i) existingNodes)

/-- `calculateNodeDepth(nodeId, nodes, edges)` with explicit fuel.  The source
recursion `1 + calculateNodeDepth(parentEdge.source, …)` has no visited guard,
so on an edge list with a cycle reachable from `nodeId` no finite fuel suffices
(`none` = the recursion has not returned within `fuel` nested calls). -/
def calculateNodeDepthF (fuel : Nat) (nodeId : String) (nodes : List Node)
    (edges : List Edge) : Option Nat :=
  match fuel with
  | 0 => none
  | fuel + 1 =>
    match edges.find? (fun e => e.target == nodeId) with
    | none => some 0
    | some parentEdge =>
      (calculateNodeDepthF fuel parentEdge.source nodes edges).map (fun d => d + 1)

/-- The grouping key of the duplicate-edge cleanup: `` `${edge.source}-${edge.target}` ``. -/
def comboKey (e : Edge) : String :=
  e.source ++ "-" ++ e.target

/-- The `setEdges` updater of the duplicate-edge cleanup effect: keep the first
edge seen for each `source-target` combo key, in input order. -/
def reconcileGo : List Edge → List String → List Edge
  | [], _ => []
  | e :: rest, seenCombos =>
    if comboKey e ∈ seenCombos then reconcileGo rest seenCombos
    else e :: reconcileGo rest (comboKey e :: seenCombos)

/-- The duplicate-edge reconciliation pass (`uniqueEdges` construction). -/
def reconcile (edges : List Edge) : List Edge :=
  reconcileGo edges []

/-- The context entries `getParentContext` pushes for one visited node:
`"Question: " + question` when the question is truthy, then
`"Answer: " + (answer || content)` when either is truthy. -/
def nodeEntries (n : Node) : List String :=
  (match n.question with
   | some q => ["Question: " ++ q]
   | none => []) ++
  (match n.answer with
   | some a => ["Answer: " ++ a]
   | none =>
     match n.content with
     | some c => ["Answer: " ++ c]
     | none => [])

/-- `getParentContext` of `buildAncestorContext`, with explicit fuel: the state is
`(visitedNodes, context)`; a node already visited is skipped (the cycle guard);
a node id not in the node list contributes nothing; otherwise the node's entries
are appended and the walk recurses through every edge whose target is the node.
`none` = the fuel ran out (shown unreachable for fuel ≥ edges.length + 2). -/
def getParentContextF (nodes : List Node) (edges : List Edge) :
    Nat → String → List String × List String → Option (List String × List String)
  | 0, _, _ => none
  | fuel + 1, currentNodeId, (visitedNodes, context) =>
    if currentNodeId ∈ visitedNodes then some (visitedNodes, context)
    else
      let visited' := currentNodeId :: visitedNodes
      match nodes.find? (fun n => n.id == currentNodeId) with
      | none => some (visited', context)
      | some node =>
        (edges.filter (fun e => e.target == currentNodeId)).foldlM
          (fun st e => getParentContextF nodes edges fuel e.source st)
          (visited', context ++ nodeEntries node)

/-- `buildAncestorContext(nodeId)` over a snapshot of nodes and edges: run the
walk from `nodeId` with empty visited set and context.  Fuel `edges.length + 2`
always suffices (proved below), so the `none` branch is unreachable. -/
def buildAncestorContext (nodes : List Node) (edges : List Edge) (nodeId : String) :
    List String :=
  match getParentContextF nodes edges (edges.length + 2) nodeId ([], []) with
  | some (_, context) => context
  | none => []

/-- The canvas state the generate-children path touches: the node list and edge
list of the Graph Store and the `nodesWithGeneratedChildren` ref (a `Set` of node
ids, modelled membership-wise). -/
structure CanvasState where
  nodes : List Node
  edges : List Edge
  tracker : List String
deriving DecidableEq, Repr

/-- The child node `handleGenerateChildNodes` builds for follow-up index `index`:
id `` `followup-${parentId}-${index}` ``, the computed position (or `(0,0)` when the
position list is short: `childPositions[index] || { x: 0, y: 0 }`), and the
question as data. -/
def mkChildNode (parentId : String) (index : Nat) (question : String)
    (childPositions : List Point) : Node :=
  { id := "followup-" ++ parentId ++ "-" ++ toString index,
    position := some (childPositions.getD index { x := 0, y := 0 }),
    question := some question,
    answer := none,
    content := none }

/-- The synchronous prefix of `handleGenerateChildNodes`: everything that runs
before any state updater or timer is dispatched.  It only reads and writes the
generation tracker: an already-tracked parent with a non-empty follow-up list is
skipped; an empty follow-up list still marks the parent; otherwise the parent is
marked *now* ("Mark as generated now to prevent race conditions") — before the
`setNodes` updater or the `setTimeout` edge updater runs. -/
def handleGenerateChildNodesSync (st : CanvasState) (parentId : String)
    (followUpQuestions : List String) : CanvasState :=
  if parentId ∈ st.tracker ∧ followUpQuestions ≠ [] then st
  else if followUpQuestions.isEmpty then
    { st with tracker := st.tracker.insert parentId }
  else
    { st with tracker := st.tracker.insert parentId }

/-- The deferred work of `handleGenerateChildNodes` once the parent is marked:
React applies the outer `setNodes` updater — which computes `newNodes` from the
current node list, enqueues a nested `setNodes(prev => [...prev, ...newNodes])`
and a nested `setEdges`, and returns `[...currentNodes, ...newNodes]` — and then
applies the nested updaters it enqueued, so the batch is appended by the outer
updater's return value and again by the nested update.  The `setTimeout` edge
updater then appends `createEdge(parentId, childId)` for every child whose
`` `edge-${parentId}-to-${childId}` `` id is absent (the built edges carry
`` `edge-${parentId}-${childId}` `` ids, so the check never fires). -/
def handleGenerateChildNodesFlush (st : CanvasState) (parentId : String)
    (followUpQuestions : List String) : CanvasState :=
  match st.nodes.find? (fun n => n.id == parentId) with
  | none => st
  | some _ =>
    let childPositions :=
      calculateNodePositions (some parentId) (followUpQuestions.length : Int) st.nodes st.edges
    if childPositions.isEmpty then st
    else
      let newNodes := followUpQuestions.enum.map
        (fun iq => mkChildNode parentId iq.1 iq.2 childPositions)
      let newNodeIds := newNodes.map (fun n => n.id)
      let edges1 := st.edges ++ newNodeIds.map (fun cid => createEdge parentId cid)
      let edges2 := edges1 ++
        (newNodeIds.filter (fun cid =>
          !(edges1.any (fun e => e.id == "edge-" ++ parentId ++ "-to-" ++ cid)))).map
          (fun cid => createEdge parentId cid)
      { st with
          nodes := (st.nodes ++ newNodes) ++ newNodes,
          edges := edges2,
          tracker := st.tracker.insert parentId }

/-- `handleGenerateChildNodes(parentId, parentQuestion, parentAnswer, followUpQuestions)`:
the synchronous tracker phase followed, when child generation proceeds, by the
deferred node/edge mutations. -/
def handleGenerateChildNodes (st : CanvasState) (parentId : String)
    (followUpQuestions : List String) : CanvasState :=
  if parentId ∈ st.tracker ∧ followUpQuestions ≠ [] then st
  else if followUpQuestions.isEmpty then
    { st with tracker := st.tracker.insert parentId }
  else
    handleGenerateChildNodesFlush
      (handleGenerateChildNodesSync st parentId followUpQuestions) parentId followUpQuestions

/-! ### Concrete fixtures used by counterexamples and witnesses -/

/-- A content-free node at a given id and position. -/
def nodeAt (id : String) (x y : Int) : Node :=
  { id := id, position := some { x := x, y := y }, question := none, answer := none,
    content := none }

/-- The root node of the canonical scenario: id `root` at the canvas center. -/
def rootNode : Node := nodeAt "root" 650 400

/-- Existing nodes that force the second child of a 2-child batch onto the slot
the first child was displaced to: the parent, a blocker on the first child's
grid slot and a blocker one horizontal grid step to its right. -/
def collidingBatchNodes : List Node :=
  [rootNode, nodeAt "b1" 900 300, nodeAt "b2" 1150 300]

/-- Blockers covering the original candidate `(650,400)` and every probe the
loop tries on attempts 1..19, plus one far-away node with a much larger y.
The 20th probe `(650, 2400)` is clear, but the loop still exhausts its bound. -/
def exhaustionNodes : List Node :=
  (List.range 10).map (fun j => nodeAt ("a" ++ toString j) 650 (400 + 200 * j)) ++
    (List.range 10).map (fun j => nodeAt ("b" ++ toString j) 900 (400 + 200 * j)) ++
    [nodeAt "far" 5000 10000]

/-- Two edges whose distinct (source, target) pairs collide on the `-`-joined
combo key: `("a-b","c")` and `("a","b-c")` both key to `"a-b-c"`. -/
def dashEdges : List Edge :=
  [{ id := "e1", source := "a-b", target := "c" },
   { id := "e2", source := "a", target := "b-c" }]

/-- A duplicate-free-keyed edge list with one duplicated pair, for the
reconciliation witness. -/
def plainEdges : List Edge :=
  [{ id := "e1", source := "x", target := "y" },
   { id := "e2", source := "x", target := "z" },
   { id := "e3", source := "x", target := "y" }]

/-- The canvas state before the generate-children call: one parent node `p`,
no edges, empty generation tracker. -/
def st0 : CanvasState :=
  { nodes := [nodeAt "p" 650 400], edges := [], tracker := [] }

/-- A single node `A` with a self-loop edge: the malformed (cyclic) graph store
of the termination counterexample. -/
def cycNodes : List Node := [nodeAt "A" 0 0]

/-- The self-loop edge `A → A`. -/
def cycEdges : List Edge := [{ id := "loop", source := "A", target := "A" }]

/-! ### Helper lemmas: the overlap-avoidance loop -/

/-- The `testPosition` after `k` iterations of the probing loop started at
`position`: fold `probeStep` `k` times. -/
def probeAt (position : Point) : Nat → Point
  | 0 => position
  | k + 1 => probeStep position (probeAt position k) k

theorem isOverlapping_nil (nodeWidth nodeHeight padding : Int) (p : Point) :
    isOverlapping nodeWidth nodeHeight padding [] p = false := rfl

theorem isOverlapping_ne_nil {nodeWidth nodeHeight padding : Int} {valid : List Point}
    {p : Point} (h : isOverlapping nodeWidth nodeHeight padding valid p = true) :
    valid ≠ [] := by
  rintro rfl
  simp [isOverlapping] at h

/-- A non-overlapping candidate is returned unchanged by `avoidOverlapWith`. -/
theorem avoidOverlapWith_of_not_overlapping (nodeWidth nodeHeight padding : Int)
    (position : Point) (existingNodes : List Node)
    (h : isOverlapping nodeWidth nodeHeight padding (validPositions existingNodes) position
      = false) :
    avoidOverlapWith nodeWidth nodeHeight padding position existingNodes = position := by
  unfold avoidOverlapWith
  split
  · rfl
  · simp only [h]
    split <;> rfl

/-- Running the loop from the state after `att` iterations: if every probe before
`k₀` overlaps and the loop stops at `k₀` (a clear probe, or the attempt bound),
the loop returns `(probeAt position k₀, k₀)`. -/
theorem probeLoop_run (nodeWidth nodeHeight padding : Int) (valid : List Point)
    (position : Point) (k₀ : Nat) (hk : k₀ ≤ 20)
    (hall : ∀ j < k₀, isOverlapping nodeWidth nodeHeight padding valid (probeAt position j)
      = true)
    (hstop : isOverlapping nodeWidth nodeHeight padding valid (probeAt position k₀) = false
      ∨ k₀ = 20) :
    ∀ fuel att, att ≤ k₀ → 21 ≤ fuel + att →
      probeLoop nodeWidth nodeHeight padding valid position fuel (probeAt position att) att
        = (probeAt position k₀, k₀) := by
  intro fuel
  induction fuel with
  | zero => intro att hatt hge; omega
  | succ fuel ih =>
    intro att hatt hge
    rcases Nat.lt_or_ge att k₀ with hlt | hge'
    · rw [probeLoop]
      rw [if_pos ⟨hall att hlt, by omega⟩]
      have : probeStep position (probeAt position att) att = probeAt position (att + 1) := rfl
      rw [this]
      exact ih (att + 1) (by omega) (by omega)
    · have : att = k₀ := by omega
      subst this
      rw [probeLoop]
      rcases hstop with hclear | hcap
      · rw [if_neg]
        simp [hclear]
      · rw [if_neg]
        omega

/-- When the original candidate overlaps, the probes at attempts `1..k₀-1`
overlap and the probe at attempt `k₀ ≤ 19` is clear, `avoidOverlapWith` returns
that first clear probe. -/
theorem avoidOverlapWith_of_found (nodeWidth nodeHeight padding : Int) (position : Point)
    (existingNodes : List Node) (k₀ : Nat) (h1 : 1 ≤ k₀) (h20 : k₀ < 20)
    (hall : ∀ j < k₀, isOverlapping nodeWidth nodeHeight padding
      (validPositions existingNodes) (probeAt position j) = true)
    (hclear : isOverlapping nodeWidth nodeHeight padding (validPositions existingNodes)
      (probeAt position k₀) = false) :
    avoidOverlapWith nodeWidth nodeHeight padding position existingNodes
      = probeAt position k₀ := by
  have hp0 : isOverlapping nodeWidth nodeHeight padding (validPositions existingNodes)
      position = true := hall 0 (by omega)
  have hvne : validPositions existingNodes ≠ [] := isOverlapping_ne_nil hp0
  have hne : existingNodes ≠ [] := by
    intro h
    subst h
    exact hvne rfl
  unfold avoidOverlapWith
  rw [if_neg (by simpa [List.isEmpty_iff] using hne)]
  simp only [List.isEmpty_iff]
  rw [if_neg hvne, hp0]
  simp only [Bool.true_eq_false, if_false]
  have hrun := probeLoop_run nodeWidth nodeHeight padding (validPositions existingNodes)
    position k₀ (by omega) hall (Or.inl hclear) 21 0 (by omega) (by omega)
  rw [show probeAt position 0 = position from rfl] at hrun
  rw [hrun]
  simp only []
  rw [if_neg (by omega)]

/-- When the original candidate and every probe at attempts `1..19` overlap, the
attempt bound is exhausted and `avoidOverlapWith` places the node below the
lowest valid node regardless of the 20th probe. -/
theorem avoidOverlapWith_of_exhausted (nodeWidth nodeHeight padding : Int) (position : Point)
    (existingNodes : List Node)
    (hall : ∀ j < 20, isOverlapping nodeWidth nodeHeight padding
      (validPositions existingNodes) (probeAt position j) = true) :
    avoidOverlapWith nodeWidth nodeHeight padding position existingNodes
      = { x := position.x,
          y := maxYOf (validPositions existingNodes) + nodeHeight + padding } := by
  have hp0 : isOverlapping nodeWidth nodeHeight padding (validPositions existingNodes)
      position = true := hall 0 (by omega)
  have hvne : validPositions existingNodes ≠ [] := isOverlapping_ne_nil hp0
  have hne : existingNodes ≠ [] := by
    intro h
    subst h
    exact hvne rfl
  unfold avoidOverlapWith
  rw [if_neg (by simpa [List.isEmpty_iff] using hne)]
  simp only [List.isEmpty_iff]
  rw [if_neg hvne, hp0]
  simp only [Bool.true_eq_false, if_false]
  have hrun := probeLoop_run nodeWidth nodeHeight padding (validPositions existingNodes)
    position 20 (by omega) hall (Or.inr rfl) 21 0 (by omega) (by omega)
  rw [show probeAt position 0 = position from rfl] at hrun
  rw [hrun]
  simp only []
  rw [if_pos (by omega)]

/-- `jsAbs` agrees with the mathematical absolute value. -/
theorem jsAbs_eq_abs (a : Int) : jsAbs a = |a| := by
  unfold jsAbs
  split
  · next h => rw [abs_of_neg h]
  · next h => rw [abs_of_nonneg (by omega)]

/-- The left operand bounds `jsMax`. -/
theorem le_jsMax_left (a b : Int) : a ≤ jsMax a b := by
  unfold jsMax
  split
  · next h => exact h
  · exact le_refl a

/-- The right operand bounds `jsMax`. -/
theorem le_jsMax_right (a b : Int) : b ≤ jsMax a b := by
  unfold jsMax
  split
  · exact le_refl b
  · next h => omega

/-- The fold that computes `maxYOf` only grows its accumulator. -/
theorem foldl_maxY_init : ∀ (l : List Point) (a : Int),
    a ≤ l.foldl (fun m r => jsMax m r.y) a := by
  intro l
  induction l with
  | nil => intro a; exact le_refl a
  | cons r rest ih =>
    intro a
    calc a ≤ jsMax a r.y := le_jsMax_left _ _
    _ ≤ rest.foldl (fun m r => jsMax m r.y) (jsMax a r.y) := ih _

/-- The fold that computes `maxYOf` dominates every member's y. -/
theorem foldl_maxY_mem : ∀ (l : List Point) (a : Int), ∀ q ∈ l,
    q.y ≤ l.foldl (fun m r => jsMax m r.y) a := by
  intro l
  induction l with
  | nil => intro a q hq; cases hq
  | cons r rest ih =>
    intro a q hq
    rcases List.mem_cons.mp hq with h | h
    · subst h
      calc q.y ≤ jsMax a q.y := le_jsMax_right _ _
      _ ≤ rest.foldl (fun m s => jsMax m s.y) (jsMax a q.y) := foldl_maxY_init rest _
    · exact ih (jsMax a r.y) q h

/-- Every valid y is at most `maxYOf`. -/
theorem le_maxYOf {l : List Point} {q : Point} (hq : q ∈ l) : q.y ≤ maxYOf l := by
  match l with
  | p :: rest =>
    show q.y ≤ rest.foldl (fun m r => jsMax m r.y) p.y
    rcases List.mem_cons.mp hq with h | h
    · subst h
      exact foldl_maxY_init rest q.y
    · exact foldl_maxY_mem rest p.y q h

/-- The exhaustion fallback overlaps no valid node: it sits a full
`nodeHeight + padding` below the largest valid y. -/
theorem fallback_not_overlapping (nodeWidth nodeHeight padding : Int)
    (hnn : 0 ≤ nodeHeight + padding) (valid : List Point) (x : Int) :
    isOverlapping nodeWidth nodeHeight padding valid
      { x := x, y := maxYOf valid + nodeHeight + padding } = false := by
  rw [isOverlapping, List.any_eq_false]
  intro q hq
  rw [overlapsB, decide_eq_true_eq]
  rintro ⟨-, hy⟩
  have hle : q.y ≤ maxYOf valid := le_maxYOf hq
  rw [jsAbs_eq_abs, abs_lt] at hy
  have h1 : -((nodeHeight + padding) / 2) < q.y - (maxYOf valid + nodeHeight + padding) :=
    hy.1
  have hhalf : (nodeHeight + padding) / 2 ≤ nodeHeight + padding := Int.ediv_le_self 2 hnn
  have hhalf0 : 0 ≤ (nodeHeight + padding) / 2 := Int.ediv_nonneg hnn (by omega)
  have hy' : q.y - (maxYOf valid + nodeHeight + padding) < 0 := by omega
  omega

/-- A loop exit with fewer than 20 attempts only happens at a clear probe. -/
theorem probeLoop_exit_clear (nodeWidth nodeHeight padding : Int) (valid : List Point)
    (position : Point) :
    ∀ fuel test att, att ≤ 20 → 21 ≤ fuel + att →
      (probeLoop nodeWidth nodeHeight padding valid position fuel test att).2 < 20 →
      isOverlapping nodeWidth nodeHeight padding valid
        (probeLoop nodeWidth nodeHeight padding valid position fuel test att).1 = false := by
  intro fuel
  induction fuel with
  | zero => intro test att h1 h2; omega
  | succ fuel ih =>
    intro test att h1 h2 hlt
    rw [probeLoop] at hlt ⊢
    by_cases hc : isOverlapping nodeWidth nodeHeight padding valid test = true ∧ att < 20
    · rw [if_pos hc] at hlt ⊢
      exact ih _ (att + 1) (by omega) (by omega) hlt
    · rw [if_neg hc] at hlt ⊢
      rcases Decidable.not_and_iff_or_not.mp hc with h | h
      · simpa using h
      · simp only at hlt
        omega

/-- The result of `avoidOverlapWith` never overlaps a valid existing node
(the amended no-overlap guarantee). -/
theorem avoidOverlapWith_not_overlapping (nodeWidth nodeHeight padding : Int)
    (hnn : 0 ≤ nodeHeight + padding) (position : Point) (existingNodes : List Node) :
    isOverlapping nodeWidth nodeHeight padding (validPositions existingNodes)
      (avoidOverlapWith nodeWidth nodeHeight padding position existingNodes) = false := by
  unfold avoidOverlapWith
  split
  · next he =>
    rw [List.isEmpty_iff] at he
    simp [he, validPositions, isOverlapping]
  · simp only [List.isEmpty_iff]
    split
    · next he => simp [he, isOverlapping]
    · split
      · next hno => exact hno
      · next hov =>
        split
        · exact fallback_not_overlapping nodeWidth nodeHeight padding hnn _ _
        · next hlt =>
          exact probeLoop_exit_clear nodeWidth nodeHeight padding _ position 21 position 0
            (by omega) (by omega) (by omega)

/-- The probing loop never moves the test position left of or above where it
stands: every step adds a positive grid offset or returns x to the original. -/
theorem probeLoop_mono (nodeWidth nodeHeight padding : Int) (valid : List Point)
    (position : Point) :
    ∀ fuel test att, position.x ≤ test.x → position.y ≤ test.y →
      position.x ≤ (probeLoop nodeWidth nodeHeight padding valid position fuel test att).1.x ∧
      position.y ≤ (probeLoop nodeWidth nodeHeight padding valid position fuel test att).1.y := by
  intro fuel
  induction fuel with
  | zero => intro test att hx hy; exact ⟨hx, hy⟩
  | succ fuel ih =>
    intro test att hx hy
    rw [probeLoop]
    split
    · apply ih
      · unfold probeStep
        split
        · show position.x ≤ test.x + GRID_HORIZONTAL_SPACING
          have h0 : (0 : Int) ≤ GRID_HORIZONTAL_SPACING := by decide
          omega
        · exact le_refl position.x
      · unfold probeStep
        split
        · exact hy
        · show position.y ≤ test.y + GRID_VERTICAL_SPACING
          have h0 : (0 : Int) ≤ GRID_VERTICAL_SPACING := by decide
          omega
    · exact ⟨hx, hy⟩

/-- An overlapping point pins down a valid node within half the padded box. -/
theorem exists_overlapping_node {nodeWidth nodeHeight padding : Int} {valid : List Point}
    {p : Point} (h : isOverlapping nodeWidth nodeHeight padding valid p = true) :
    ∃ q ∈ valid, |q.x - p.x| < (nodeWidth + padding) / 2 ∧
      |q.y - p.y| < (nodeHeight + padding) / 2 := by
  rw [isOverlapping, List.any_eq_true] at h
  rcases h with ⟨q, hq, hover⟩
  rw [overlapsB, decide_eq_true_eq, jsAbs_eq_abs, jsAbs_eq_abs] at hover
  exact ⟨q, hq, hover⟩

/-! ### Helper lemmas: the duplicate-edge reconciliation pass -/

/-- The kept list is a sublist of the input: relative order is preserved. -/
theorem reconcileGo_sublist : ∀ (edges : List Edge) (seen : List String),
    List.Sublist (reconcileGo edges seen) edges := by
  intro edges
  induction edges with
  | nil => intro seen; exact List.Sublist.refl []
  | cons e rest ih =>
    intro seen
    rw [reconcileGo]
    split
    · exact List.Sublist.cons e (ih seen)
    · exact List.Sublist.cons₂ e (ih (comboKey e :: seen))

/-- No kept edge has a combo key that was already seen. -/
theorem reconcileGo_key_not_seen : ∀ (edges : List Edge) (seen : List String) (x : Edge),
    x ∈ reconcileGo edges seen → comboKey x ∉ seen := by
  intro edges
  induction edges with
  | nil => intro seen x hx; cases hx
  | cons e rest ih =>
    intro seen x hx
    rw [reconcileGo] at hx
    split at hx
    · exact ih seen x hx
    · rcases List.mem_cons.mp hx with h | h
      · next hnot => subst h; exact hnot
      · intro hk
        exact ih (comboKey e :: seen) x h (List.mem_cons_of_mem _ hk)

/-- The first kept edge with a given combo key is the first input edge with that
key, and a key already seen keeps nothing. -/
theorem reconcileGo_find? : ∀ (edges : List Edge) (seen : List String) (k : String),
    (reconcileGo edges seen).find? (fun x => comboKey x == k)
      = if k ∈ seen then none else edges.find? (fun x => comboKey x == k) := by
  intro edges
  induction edges with
  | nil => intro seen k; simp [reconcileGo]
  | cons e rest ih =>
    intro seen k
    rw [reconcileGo]
    by_cases hseen : comboKey e ∈ seen
    · rw [if_pos hseen]
      by_cases hk : comboKey e = k
      · subst hk
        rw [if_pos hseen]
        rw [List.find?_eq_none.mpr]
        intro x hx
        simp only [beq_iff_eq]
        intro hxe
        exact reconcileGo_key_not_seen rest seen x hx (hxe ▸ hseen)
      · rw [ih seen k]
        by_cases hks : k ∈ seen
        · simp [hks]
        · simp only [hks, if_false]
          rw [List.find?_cons_of_neg]
          simp [beq_iff_eq, hk]
    · rw [if_neg hseen]
      by_cases hk : comboKey e = k
      · subst hk
        rw [if_neg hseen]
        rw [List.find?_cons_of_pos, List.find?_cons_of_pos] <;> simp
      · rw [List.find?_cons_of_neg _ (by simp [beq_iff_eq, hk])]
        rw [ih (comboKey e :: seen) k]
        by_cases hks : k ∈ seen
        · simp [hks, List.mem_cons, hk]
        · have : k ∉ comboKey e :: seen := by
            simp only [List.mem_cons]
            rintro (h | h)
            · exact hk h.symm
            · exact hks h
          rw [if_neg this, if_neg hks]
          rw [List.find?_cons_of_neg _ (by simp [beq_iff_eq, hk])]

/-- How many edges with a given combo key the cleanup keeps: none when the key
was already seen, else exactly one when the input has any. -/
theorem reconcileGo_countP : ∀ (edges : List Edge) (seen : List String) (k : String),
    (reconcileGo edges seen).countP (fun x => comboKey x == k)
      = if k ∈ seen then 0
        else min 1 (edges.countP (fun x => comboKey x == k)) := by
  intro edges
  induction edges with
  | nil => intro seen k; simp [reconcileGo]
  | cons e rest ih =>
    intro seen k
    rw [reconcileGo]
    by_cases hseen : comboKey e ∈ seen
    · rw [if_pos hseen]
      by_cases hk : comboKey e = k
      · subst hk
        rw [if_pos hseen, ih seen (comboKey e), if_pos hseen]
      · rw [ih seen k]
        by_cases hks : k ∈ seen
        · simp [hks]
        · simp only [hks, if_false]
          rw [List.countP_cons_of_neg]
          simp [beq_iff_eq, hk]
    · rw [if_neg hseen]
      by_cases hk : comboKey e = k
      · subst hk
        rw [if_neg hseen]
        rw [List.countP_cons_of_pos _ _ (by simp), List.countP_cons_of_pos _ _ (by simp)]
        rw [ih (comboKey e :: seen) (comboKey e), if_pos (List.mem_cons_self _ _)]
        omega
      · rw [List.countP_cons_of_neg _ _ (by simp [beq_iff_eq, hk])]
        rw [List.countP_cons_of_neg _ _ (by simp [beq_iff_eq, hk])]
        rw [ih (comboKey e :: seen) k]
        by_cases hks : k ∈ seen
        · rw [if_pos (List.mem_cons_of_mem _ hks), if_pos hks]
        · have hnot : k ∉ comboKey e :: seen := by
            simp only [List.mem_cons]
            rintro (h | h)
            · exact hk h.symm
            · exact hks h
          rw [if_neg hnot, if_neg hks]

/-- On a list of edges whose combo keys determine their (source, target) pairs,
the same-pair test agrees with the same-key test. -/
theorem samePair_eq_sameKey {edges : List Edge}
    (hinj : ∀ e₁ ∈ edges, ∀ e₂ ∈ edges, comboKey e₁ = comboKey e₂ →
      e₁.source = e₂.source ∧ e₁.target = e₂.target)
    {e : Edge} (he : e ∈ edges) {x : Edge} (hx : x ∈ edges) :
    (x.source == e.source && x.target == e.target) = (comboKey x == comboKey e) := by
  by_cases hk : comboKey x = comboKey e
  · rcases hinj x hx e he hk with ⟨hs, ht⟩
    simp [hs, ht, hk]
  · have hpair : ¬(x.source = e.source ∧ x.target = e.target) := by
      rintro ⟨hs, ht⟩
      exact hk (by rw [comboKey, comboKey, hs, ht])
    have h1 : (comboKey x == comboKey e) = false := by
      simp [hk]
    rw [h1, Bool.eq_false_iff]
    simp only [ne_eq, Bool.and_eq_true, beq_iff_eq]
    exact hpair

/-! ### Helper lemmas: termination of the ancestor-context walk

The walk only ever recurses into edge sources, and the visited set grows by one
id per non-pruned call, so any fuel exceeding the number of not-yet-visited
candidate ids (the start id plus all edge sources) runs the walk to completion. -/

/-- Fuel sufficiency for `getParentContextF`: with `T` a set containing every
edge source, a call on an id in `T` whose remaining budget `(T \ visited).card`
is below the fuel succeeds, only grows the visited list, and adds only ids of
`T` to it. -/
theorem gpcF_some (nodes : List Node) (edges : List Edge) (T : Finset String)
    (hT : ∀ e ∈ edges, e.source ∈ T) :
    ∀ (fuel : Nat) (id : String) (vc : List String × List String), id ∈ T →
      (T \ vc.1.toFinset).card < fuel →
      ∃ out, getParentContextF nodes edges fuel id vc = some out ∧
        (∀ x ∈ vc.1, x ∈ out.1) ∧ (∀ x ∈ out.1, x ∈ vc.1 ∨ x ∈ T) := by
  intro fuel
  induction fuel with
  | zero => intro id vc hid hcard; omega
  | succ fuel ih =>
    rintro id ⟨visited, ctx⟩ hid hcard
    replace hcard : (T \ visited.toFinset).card < fuel + 1 := hcard
    by_cases hv : id ∈ visited
    · refine ⟨(visited, ctx), ?_, fun x hx => hx, fun x hx => Or.inl hx⟩
      simp [getParentContextF, hv]
    · have hcard' : (T \ (id :: visited).toFinset).card < fuel := by
        have hmem : id ∈ T \ visited.toFinset := by
          rw [Finset.mem_sdiff, List.mem_toFinset]
          exact ⟨hid, hv⟩
        have h1 : (T \ (id :: visited).toFinset) = (T \ visited.toFinset).erase id := by
          rw [List.toFinset_cons, Finset.sdiff_insert]
        rw [h1, Finset.card_erase_of_mem hmem]
        have h2 : 1 ≤ (T \ visited.toFinset).card := Finset.card_pos.mpr ⟨id, hmem⟩
        omega
      cases hfind : nodes.find? (fun n => n.id == id) with
      | none =>
        refine ⟨(id :: visited, ctx), ?_, fun x hx => List.mem_cons_of_mem _ hx, ?_⟩
        · simp [getParentContextF, hv, hfind]
        · intro x hx
          rcases List.mem_cons.mp hx with h | h
          · exact Or.inr (h ▸ hid)
          · exact Or.inl h
      | some node =>
        have hfold : ∀ (l : List Edge), (∀ e ∈ l, e.source ∈ T) →
            ∀ (v c : List String), (T \ v.toFinset).card < fuel →
            ∃ out, l.foldlM (fun st e => getParentContextF nodes edges fuel e.source st) (v, c)
              = some out ∧ (∀ x ∈ v, x ∈ out.1) ∧ (∀ x ∈ out.1, x ∈ v ∨ x ∈ T) := by
          intro l
          induction l with
          | nil =>
            intro _ v c _
            exact ⟨(v, c), rfl, fun x hx => hx, fun x hx => Or.inl hx⟩
          | cons e rest ihl =>
            intro hl v c hcv
            rcases ih e.source (v, c) (hl e (List.mem_cons_self _ _)) hcv with
              ⟨out₁, hout₁, hsub₁, hmem₁⟩
            have hcv₁ : (T \ out₁.1.toFinset).card < fuel := by
              have hsubset : T \ out₁.1.toFinset ⊆ T \ v.toFinset := by
                apply Finset.sdiff_subset_sdiff (le_refl T)
                intro x hx
                rw [List.mem_toFinset] at hx ⊢
                exact hsub₁ x hx
              exact lt_of_le_of_lt (Finset.card_le_card hsubset) hcv
            rcases ihl (fun e' he' => hl e' (List.mem_cons_of_mem _ he')) out₁.1 out₁.2
              hcv₁ with ⟨out, hout, hsub, hmem⟩
            refine ⟨out, ?_, ?_, ?_⟩
            · rw [List.foldlM_cons, hout₁]
              simpa using hout
            · intro x hx
              exact hsub x (hsub₁ x hx)
            · intro x hx
              rcases hmem x hx with h | h
              · exact hmem₁ x h
              · exact Or.inr h
        have hl : ∀ e ∈ edges.filter (fun e => e.target == id), e.source ∈ T :=
          fun e he => hT e (List.mem_of_mem_filter he)
        rcases hfold (edges.filter (fun e => e.target == id)) hl (id :: visited)
          (ctx ++ nodeEntries node) hcard' with ⟨out, hout, hsub, hmem⟩
        refine ⟨out, ?_, ?_, ?_⟩
        · have hstep : getParentContextF nodes edges (fuel + 1) id (visited, ctx)
              = (edges.filter (fun e => e.target == id)).foldlM
                (fun st e => getParentContextF nodes edges fuel e.source st)
                (id :: visited, ctx ++ nodeEntries node) := by
            simp [getParentContextF, hv, hfind]
          rw [hstep, hout]
        · intro x hx
          exact hsub x (List.mem_cons_of_mem _ hx)
        · intro x hx
          rcases hmem x hx with h | h
          · rcases List.mem_cons.mp h with h' | h'
            · exact Or.inr (h' ▸ hid)
            · exact Or.inl h'
          · exact Or.inr h

/-- The fuel `edges.length + 2` that `buildAncestorContext` passes always
suffices: the walk never runs out of fuel, on any snapshot, cyclic or not. -/
theorem getParentContextF_isSome (nodes : List Node) (edges : List Edge)
    (nodeId : String) :
    (getParentContextF nodes edges (edges.length + 2) nodeId ([], [])).isSome = true := by
  have hT : ∀ e ∈ edges, e.source ∈ insert nodeId (edges.map (fun e => e.source)).toFinset := by
    intro e he
    exact Finset.mem_insert_of_mem (List.mem_toFinset.mpr (List.mem_map_of_mem _ he))
  have hcard : ((insert nodeId (edges.map (fun e => e.source)).toFinset) \
      (([] : List String).toFinset)).card < edges.length + 2 := by
    rw [List.toFinset_nil, Finset.sdiff_empty]
    have h1 := Finset.card_insert_le nodeId (edges.map (fun e => e.source)).toFinset
    have h2 := List.toFinset_card_le (edges.map (fun e => e.source))
    rw [List.length_map] at h2
    omega
  rcases gpcF_some nodes edges _ hT (edges.length + 2) nodeId ([], [])
    (Finset.mem_insert_self _ _) hcard with ⟨out, hout, -, -⟩
  rw [hout]
  rfl

/-- Two predicates agreeing on a list's members find the same first element. -/
theorem find?_congr {α : Type} {l : List α} {p q : α → Bool}
    (h : ∀ x ∈ l, p x = q x) : l.find? p = l.find? q := by
  induction l with
  | nil => rfl
  | cons a l ih =>
    rw [List.find?_cons, List.find?_cons, h a (List.mem_cons_self _ _)]
    split
    · rfl
    · exact ih (fun x hx => h x (List.mem_cons_of_mem _ hx))

/-- `calculateNodeDepth` never returns on the self-loop graph: the recursion
follows the edge `A → A` forever, so every fuel runs out. -/
theorem depthF_cyc_none : ∀ fuel : Nat,
    calculateNodeDepthF fuel "A" cycNodes cycEdges = none := by
  intro fuel
  induction fuel with
  | zero => rfl
  | succ fuel ih =>
    have hstep : calculateNodeDepthF (fuel + 1) "A" cycNodes cycEdges
        = (calculateNodeDepthF fuel "A" cycNodes cycEdges).map (fun d => d + 1) := by
      simp [calculateNodeDepthF, cycEdges]
    rw [hstep, ih]
    rfl

/-! ### The claims -/

/-- C1 (amended): when the parent id resolves to a node with a valid numeric
position, every position `calculateNodePositions` returns overlaps no valid node
of `existingNodes`, where overlap means being strictly within
`(NODE_WIDTH+PADDING)/2` horizontally and `(NODE_HEIGHT+PADDING)/2` vertically
on both axes.  (Feeding outputs back in as existing nodes therefore keeps later
batches clear of all earlier positions by this half-box measure; positions
within a single batch carry no such guarantee.) -/
theorem calculateNodePositions_clear_of_existing (pid : String) (childrenCount : Int)
    (existingNodes : List Node) (existingEdges : List Edge) (ppos : Point)
    (hp : (existingNodes.find? (fun n => n.id == pid)).bind (fun n => n.position)
      = some ppos) :
    ∀ p ∈ calculateNodePositions (some pid) childrenCount existingNodes existingEdges,
      isOverlapping NODE_WIDTH NODE_HEIGHT PADDING (validPositions existingNodes) p
        = false := by
  intro p hmem
  simp only [calculateNodePositions] at hmem
  rw [hp] at hmem
  simp only [List.mem_map] at hmem
  rcases hmem with ⟨i, _, rfl⟩
  exact avoidOverlapWith_not_overlapping NODE_WIDTH NODE_HEIGHT PADDING (by decide)
    _ existingNodes

/-- Witness for C1's amended theorem: the root's single child at `(900,400)` is
clear of the root node by the half-box measure. -/
theorem calculateNodePositions_clear_of_existing_witness :
    isOverlapping NODE_WIDTH NODE_HEIGHT PADDING (validPositions [rootNode])
      { x := 900, y := 400 } = false :=
  calculateNodePositions_clear_of_existing "root" 1 [rootNode] [] { x := 650, y := 400 }
    (by decide) { x := 900, y := 400 } (by decide)

/-- Counterexample to C1 as stated: feeding the first call's output `(650,400)`
back in as the root node, the next call returns `(900,400)`, which is within
`NODE_WIDTH+PADDING = 350` horizontally and `NODE_HEIGHT+PADDING = 200`
vertically of it on both axes; and a single call can even return the same
position twice for two siblings (blockers displace the first child onto the
second child's slot). -/
theorem calculateNodePositions_full_box_violations :
    calculateNodePositions none 1 [] [] = [{ x := 650, y := 400 }] ∧
    rootNode.position = some { x := 650, y := 400 } ∧
    calculateNodePositions (some "root") 1 [rootNode] [] = [{ x := 900, y := 400 }] ∧
    jsAbs (900 - 650) < NODE_WIDTH + PADDING ∧
    jsAbs (400 - 400) < NODE_HEIGHT + PADDING ∧
    calculateNodePositions (some "root") 2 collidingBatchNodes []
      = [{ x := 900, y := 500 }, { x := 900, y := 500 }] := by
  decide

/-- C5 (amended): when the parent id does not resolve to a node with a valid
numeric position, `calculateNodePositions` returns the single canonical center
position `[(650,400)]` — one element regardless of the requested child count —
and never throws. -/
theorem calculateNodePositions_missing_parent (pid : String) (childrenCount : Int)
    (existingNodes : List Node) (existingEdges : List Edge)
    (hp : (existingNodes.find? (fun n => n.id == pid)).bind (fun n => n.position)
      = none) :
    calculateNodePositions (some pid) childrenCount existingNodes existingEdges
      = [{ x := 650, y := 400 }] := by
  simp only [calculateNodePositions]
  rw [hp]

/-- Witness for C5's amended theorem: an unresolvable parent with two requested
children yields the single center position. -/
theorem calculateNodePositions_missing_parent_witness :
    calculateNodePositions (some "ghost") 2 [] [] = [{ x := 650, y := 400 }] :=
  calculateNodePositions_missing_parent "ghost" 2 [] [] (by decide)

/-- Counterexample to C5 as stated: for a missing parent and requested count 2
the result has length 1, not the (coerced) requested childCount 2. -/
theorem calculateNodePositions_missing_parent_length :
    (calculateNodePositions (some "ghost") 2 [] []).length = 1 ∧ (1 : Nat) ≠ 2 := by
  decide

/-- C6: when the parent resolves to a valid position and no grid candidate
overlaps an existing valid node, child `i` is placed at
`x = parent.x + GRID_HORIZONTAL_SPACING + floor(i/MAX_SIBLINGS)*(NODE_WIDTH+PADDING)`
and `y = startY + (i mod MAX_SIBLINGS)*GRID_VERTICAL_SPACING`, where `startY`
centers the stack of `min(count, MAX_SIBLINGS)` rows around the parent's y. -/
theorem calculateNodePositions_grid_formula (pid : String) (childrenCount : Int)
    (existingNodes : List Node) (existingEdges : List Edge) (ppos : Point)
    (count : Nat) (startY : Int)
    (hcount : count = if childrenCount ≤ 0 then 1 else childrenCount.toNat)
    (hstart : startY = ppos.y
      - (↑(min count MAX_SIBLINGS_PER_LEVEL) : Int) * GRID_VERTICAL_SPACING / 2
      + GRID_VERTICAL_SPACING / 2)
    (hp : (existingNodes.find? (fun n => n.id == pid)).bind (fun n => n.position)
      = some ppos)
    (hfree : ∀ i < count, isOverlapping NODE_WIDTH NODE_HEIGHT PADDING
      (validPositions existingNodes)
      (gridCandidate (ppos.x + GRID_HORIZONTAL_SPACING) startY i) = false) :
    calculateNodePositions (some pid) childrenCount existingNodes existingEdges
      = (List.range count).map
          (gridCandidate (ppos.x + GRID_HORIZONTAL_SPACING) startY) := by
  simp only [calculateNodePositions]
  rw [hp, ← hcount]
  simp only []
  have hstartY : (if 1 < count then ppos.y
      - (↑(min count MAX_SIBLINGS_PER_LEVEL) : Int) * GRID_VERTICAL_SPACING / 2
      + GRID_VERTICAL_SPACING / 2 else ppos.y) = startY := by
    by_cases h1c : 1 < count
    · rw [if_pos h1c, hstart]
    · rw [if_neg h1c]
      have h1 : 1 ≤ count := by
        rw [hcount]
        split
        · exact le_refl 1
        · next hpos => omega
      have hc1 : count = 1 := by omega
      subst hc1
      have hA : (↑(min 1 MAX_SIBLINGS_PER_LEVEL) : Int) * GRID_VERTICAL_SPACING / 2
          = 100 := by decide
      have hB : GRID_VERTICAL_SPACING / 2 = (100 : Int) := by decide
      rw [hstart, hA, hB]
      omega
  rw [hstartY]
  apply List.map_congr_left
  intro i hi
  rw [List.mem_range] at hi
  exact avoidOverlapWith_of_not_overlapping NODE_WIDTH NODE_HEIGHT PADDING _ _
    (hfree i hi)

/-- Witness for C6: the root at `(650,400)` with 4 requested children wraps into
two columns, the second offset by `NODE_WIDTH+PADDING = 350` in x. -/
theorem calculateNodePositions_grid_formula_witness :
    calculateNodePositions (some "root") 4 [rootNode] []
      = (List.range 4).map (gridCandidate 900 200) ∧
    (List.range 4).map (gridCandidate 900 200)
      = [{ x := 900, y := 200 }, { x := 900, y := 400 }, { x := 900, y := 600 },
         { x := 1250, y := 200 }] ∧
    (1250 : Int) - 900 = NODE_WIDTH + PADDING :=
  ⟨calculateNodePositions_grid_formula "root" 4 [rootNode] [] { x := 650, y := 400 } 4 200
      (by decide) (by decide) (by decide) (by decide),
    by decide, by decide⟩

/-- C7 (amended): a non-overlapping candidate is returned unchanged; if the
original overlaps, the probes alternate "one grid step right" / "back to the
original x, one grid step down", and the first clear probe among attempts 1..19
is returned; if the first 19 probes all overlap the bound is exhausted — even
when the 20th probe is clear — and the result is the below-everything fallback
`(candidate.x, maxY + nodeHeight + padding)`, which overlaps no valid node.  In
the scenario with an existing node exactly on the candidate `(650,400)`, the
resolved position is one full horizontal grid step away. -/
theorem avoidOverlap_probe_resolution :
    (∀ (position : Point) (existingNodes : List Node),
      isOverlapping NODE_WIDTH NODE_HEIGHT PADDING (validPositions existingNodes) position
          = false →
        avoidOverlap position existingNodes = position) ∧
    (∀ (position : Point) (existingNodes : List Node) (k : Nat), 1 ≤ k → k < 20 →
      (∀ j < k, isOverlapping NODE_WIDTH NODE_HEIGHT PADDING (validPositions existingNodes)
        (probeAt position j) = true) →
      isOverlapping NODE_WIDTH NODE_HEIGHT PADDING (validPositions existingNodes)
        (probeAt position k) = false →
      avoidOverlap position existingNodes = probeAt position k) ∧
    (∀ (position : Point) (existingNodes : List Node),
      (∀ j < 20, isOverlapping NODE_WIDTH NODE_HEIGHT PADDING (validPositions existingNodes)
        (probeAt position j) = true) →
      avoidOverlap position existingNodes
          = { x := position.x,
              y := maxYOf (validPositions existingNodes) + NODE_HEIGHT + PADDING } ∧
        isOverlapping NODE_WIDTH NODE_HEIGHT PADDING (validPositions existingNodes)
          (avoidOverlap position existingNodes) = false) ∧
    (avoidOverlap { x := 650, y := 400 } [nodeAt "n" 650 400] = { x := 900, y := 400 } ∧
      probeAt { x := 650, y := 400 } 1 = { x := 900, y := 400 } ∧
      (900 : Int) - 650 = GRID_HORIZONTAL_SPACING) := by
  refine ⟨?_, ?_, ?_, by decide⟩
  · intro position existingNodes h
    exact avoidOverlapWith_of_not_overlapping NODE_WIDTH NODE_HEIGHT PADDING position
      existingNodes h
  · intro position existingNodes k h1 h20 hall hclear
    exact avoidOverlapWith_of_found NODE_WIDTH NODE_HEIGHT PADDING position existingNodes
      k h1 h20 hall hclear
  · intro position existingNodes hall
    refine ⟨?_, ?_⟩
    · exact avoidOverlapWith_of_exhausted NODE_WIDTH NODE_HEIGHT PADDING position
        existingNodes hall
    · exact avoidOverlapWith_not_overlapping NODE_WIDTH NODE_HEIGHT PADDING (by decide)
        position existingNodes

/-- Counterexample to C7 as stated: with blockers on the candidate and on every
probe of attempts 1..19 plus one far node low on the canvas, the 20th probe
`(650, 2400)` is clear — a non-overlapping probe within the 20 attempts — yet
`avoidOverlap` returns the fallback `(650, 10200)` instead of it. -/
theorem avoidOverlap_discards_clear_twentieth_probe :
    avoidOverlap { x := 650, y := 400 } exhaustionNodes = { x := 650, y := 10200 } ∧
    probeAt { x := 650, y := 400 } 20 = { x := 650, y := 2400 } ∧
    isOverlapping NODE_WIDTH NODE_HEIGHT PADDING (validPositions exhaustionNodes)
      { x := 650, y := 2400 } = false ∧
    ((List.range 20).all (fun j =>
      isOverlapping NODE_WIDTH NODE_HEIGHT PADDING (validPositions exhaustionNodes)
        (probeAt { x := 650, y := 400 } j))) = true ∧
    ({ x := 650, y := 2400 } : Point) ≠ { x := 650, y := 10200 } := by
  decide

/-- C10: overlap resolution only ever displaces a candidate rightward and/or
downward — for non-negative node dimensions and padding the resolved position
always satisfies `x ≥ candidate.x` and `y ≥ candidate.y`, on every code path
including the exhaustion fallback. -/
theorem avoidOverlap_only_displaces_right_or_down (nodeWidth nodeHeight padding : Int)
    (hw : 0 ≤ nodeWidth) (hh : 0 ≤ nodeHeight) (hpad : 0 ≤ padding)
    (position : Point) (existingNodes : List Node) :
    position.x ≤ (avoidOverlapWith nodeWidth nodeHeight padding position existingNodes).x ∧
    position.y ≤ (avoidOverlapWith nodeWidth nodeHeight padding position existingNodes).y := by
  unfold avoidOverlapWith
  split
  · exact ⟨le_refl _, le_refl _⟩
  · simp only [List.isEmpty_iff]
    split
    · exact ⟨le_refl _, le_refl _⟩
    · split
      · exact ⟨le_refl _, le_refl _⟩
      · next hov =>
        have hov' : isOverlapping nodeWidth nodeHeight padding
            (validPositions existingNodes) position = true := by
          cases h : isOverlapping nodeWidth nodeHeight padding
            (validPositions existingNodes) position
          · exact absurd h hov
          · rfl
        split
        · constructor
          · exact le_refl _
          · show position.y ≤ maxYOf (validPositions existingNodes) + nodeHeight + padding
            obtain ⟨q, hq, -, hy⟩ := exists_overlapping_node hov'
            have h1 : q.y ≤ maxYOf (validPositions existingNodes) := le_maxYOf hq
            rw [abs_lt] at hy
            have hhalf0 : 0 ≤ (nodeHeight + padding) / 2 :=
              Int.ediv_nonneg (by omega) (by omega)
            have hhalf : (nodeHeight + padding) / 2 ≤ nodeHeight + padding :=
              Int.ediv_le_self 2 (by omega)
            omega
        · exact probeLoop_mono nodeWidth nodeHeight padding
            (validPositions existingNodes) position 21 position 0 (le_refl _) (le_refl _)

/-- Witness for C10 at `(650,400)` against a node sitting exactly there. -/
theorem avoidOverlap_only_displaces_witness :
    (0 : Int) ≤ 300 ∧
    (({ x := 650, y := 400 } : Point).x
        ≤ (avoidOverlapWith 300 150 50 { x := 650, y := 400 } [nodeAt "n" 650 400]).x ∧
      ({ x := 650, y := 400 } : Point).y
        ≤ (avoidOverlapWith 300 150 50 { x := 650, y := 400 } [nodeAt "n" 650 400]).y) :=
  ⟨by decide, avoidOverlap_only_displaces_right_or_down 300 150 50 (by decide) (by decide)
    (by decide) { x := 650, y := 400 } [nodeAt "n" 650 400]⟩

/-- C2 (amended): on edge lists whose `-`-joined combo keys determine the
(source, target) pair — in particular whenever node ids contain no `-` — the
reconciliation pass keeps, for every pair present in the input, exactly one
edge with that pair, namely the first-seen one, and preserves the relative
order of kept edges (the output is a sublist of the input). -/
theorem reconcile_exactly_one_per_pair (edges : List Edge)
    (hinj : ∀ e₁ ∈ edges, ∀ e₂ ∈ edges, comboKey e₁ = comboKey e₂ →
      e₁.source = e₂.source ∧ e₁.target = e₂.target) :
    List.Sublist (reconcile edges) edges ∧
    ∀ e ∈ edges,
      ((reconcile edges).filter
          (fun x => x.source == e.source && x.target == e.target)).length = 1 ∧
      (reconcile edges).find? (fun x => x.source == e.source && x.target == e.target)
        = edges.find? (fun x => x.source == e.source && x.target == e.target) := by
  have hsub : List.Sublist (reconcile edges) edges := reconcileGo_sublist edges []
  refine ⟨hsub, fun e he => ⟨?_, ?_⟩⟩
  · have hagree : ∀ x ∈ reconcile edges,
        (x.source == e.source && x.target == e.target) = (comboKey x == comboKey e) :=
      fun x hx => samePair_eq_sameKey hinj he (hsub.subset hx)
    rw [List.filter_congr hagree, ← List.countP_eq_length_filter]
    unfold reconcile
    rw [reconcileGo_countP edges [] (comboKey e), if_neg (List.not_mem_nil _)]
    have hpos : 0 < edges.countP (fun x => comboKey x == comboKey e) :=
      List.countP_pos_iff.mpr ⟨e, he, by simp⟩
    omega
  · have hagree : ∀ x ∈ reconcile edges,
        (x.source == e.source && x.target == e.target) = (comboKey x == comboKey e) :=
      fun x hx => samePair_eq_sameKey hinj he (hsub.subset hx)
    have hagree' : ∀ x ∈ edges,
        (x.source == e.source && x.target == e.target) = (comboKey x == comboKey e) :=
      fun x hx => samePair_eq_sameKey hinj he hx
    rw [find?_congr hagree, find?_congr hagree']
    unfold reconcile
    rw [reconcileGo_find? edges [] (comboKey e), if_neg (List.not_mem_nil _)]

/-- Witness for C2's amended theorem: in a dash-free input with a duplicated
(x, y) pair, the output keeps exactly one (x, y) edge. -/
theorem reconcile_exactly_one_witness :
    ((reconcile plainEdges).filter
      (fun x => x.source == "x" && x.target == "y")).length = 1 :=
  ((reconcile_exactly_one_per_pair plainEdges (by decide)).2
    { id := "e1", source := "x", target := "y" } (by decide)).1

/-- Counterexample to C2 as stated: the distinct pairs `("a-b","c")` and
`("a","b-c")` collide on the combo key `"a-b-c"`, so the second edge is dropped
although its pair occurs in the input — the output contains no edge with pair
`("a","b-c")` at all. -/
theorem reconcile_dash_key_collision :
    reconcile dashEdges = [{ id := "e1", source := "a-b", target := "c" }] ∧
    (dashEdges.filter (fun x => x.source == "a" && x.target == "b-c")).length = 1 ∧
    ((reconcile dashEdges).filter
      (fun x => x.source == "a" && x.target == "b-c")).length = 0 := by
  decide


/-- C3 evaluated at the failing input (code_bug): calling the generate-children
path twice in immediate succession for parent `p` with one follow-up question
and a shared tracker does make the second call a no-op, and the tracker mark is
inserted by the synchronous phase — before the deferred node/edge updaters run,
which leave the node list untouched until the flush — but the single batch's
child node is appended twice by the first call, not once. -/
theorem handleGenerateChildNodes_twice_eval :
    handleGenerateChildNodes (handleGenerateChildNodes st0 "p" ["q1"]) "p" ["q1"]
      = handleGenerateChildNodes st0 "p" ["q1"] ∧
    "p" ∈ (handleGenerateChildNodesSync st0 "p" ["q1"]).tracker ∧
    (handleGenerateChildNodesSync st0 "p" ["q1"]).nodes = st0.nodes ∧
    (handleGenerateChildNodesSync st0 "p" ["q1"]).edges = st0.edges ∧
    ((handleGenerateChildNodes st0 "p" ["q1"]).nodes.filter
      (fun n => n.id == "followup-p-0")).length = 2 := by
  decide

/-- C4 evaluated at the failing input (code_bug): after a single
generate-children call the node list holds two nodes with id `followup-p-0` —
the batch is appended once by the outer updater's returned list and once by the
nested `setNodes` it enqueued — so node ids are no longer pairwise distinct. -/
theorem handleGenerateChildNodes_duplicate_id_eval :
    ¬ ((handleGenerateChildNodes st0 "p" ["q1"]).nodes.map (fun n => n.id)).Nodup ∧
    ((handleGenerateChildNodes st0 "p" ["q1"]).nodes.filter
      (fun n => n.id == "followup-p-0")).length = 2 ∧
    (st0.nodes.map (fun n => n.id)).Nodup := by
  decide

/-- C8: for the chain root→A→B→C with one incoming edge per node,
`buildAncestorContext C` lists each node's question/answer (or content) entries
exactly once, in the fixed node-first order C, B, A, root — for every choice of
the nodes' data fields (determinism is immediate: the builder is a pure
function of the snapshot). -/
theorem buildAncestorContext_chain_order
    (qR aR cR qA aA cA qB aB cB qC aC cC : Option String) :
    buildAncestorContext
      [ { id := "root", position := none, question := qR, answer := aR, content := cR },
        { id := "A", position := none, question := qA, answer := aA, content := cA },
        { id := "B", position := none, question := qB, answer := aB, content := cB },
        { id := "C", position := none, question := qC, answer := aC, content := cC } ]
      [ createEdge "root" "A", createEdge "A" "B", createEdge "B" "C" ] "C"
    = nodeEntries { id := "C", position := none, question := qC, answer := aC, content := cC }
      ++ nodeEntries { id := "B", position := none, question := qB, answer := aB, content := cB }
      ++ nodeEntries { id := "A", position := none, question := qA, answer := aA, content := cA }
      ++ nodeEntries { id := "root", position := none, question := qR, answer := aR, content := cR } := by
  simp [buildAncestorContext, getParentContextF, createEdge, List.foldlM, List.filter,
    List.find?]

/-- C9 (amended): the ancestor-context walk terminates on every finite node and
edge list — cyclic ones included — because its visited-set guard bounds the
recursion by the number of candidate ids, so the fuel `edges.length + 2` the
builder passes always suffices; the node-depth recursion, by contrast, has no
visited guard and does not terminate on an edge list with a cycle reachable
from the queried node (no fuel suffices on the self-loop `A → A`). -/
theorem upward_walk_termination :
    (∀ (nodes : List Node) (edges : List Edge) (nodeId : String),
      (getParentContextF nodes edges (edges.length + 2) nodeId ([], [])).isSome = true) ∧
    ¬ ∃ fuel : Nat, (calculateNodeDepthF fuel "A" cycNodes cycEdges).isSome = true := by
  constructor
  · exact getParentContextF_isSome
  · rintro ⟨fuel, hf⟩
    rw [depthF_cyc_none fuel] at hf
    cases hf

/-- Counterexample to C9 as stated: on the self-loop `A → A` the node-depth
recursion returns within no finite fuel — it would recurse forever. -/
theorem calculateNodeDepth_diverges_on_cycle :
    ¬ ∃ fuel : Nat, (calculateNodeDepthF fuel "A" cycNodes cycEdges).isSome = true := by
  rintro ⟨fuel, hf⟩
  rw [depthF_cyc_none fuel] at hf
  cases hf

end MindMap
